import Mathlib

set_option autoImplicit false

namespace Lucky

/-- Modelled from the spec: `crate::types::ScriptState` is not among the sources
(only `src/daemon.rs` and the CLI glue are). The spec mandates a small, totally
ordered label set (least to most severe, e.g. Active < Maintenance < Waiting <
Blocked < Error) with a defined minimum used as the default/empty aggregate. -/
inductive ScriptState where
  | Active
  | Maintenance
  | Waiting
  | Blocked
  | Error
deriving DecidableEq, Repr, Fintype

/-- Severity rank giving the total precedence order on `ScriptState`. -/
def ScriptState.rank : ScriptState → Nat
  | .Active => 0
  | .Maintenance => 1
  | .Waiting => 2
  | .Blocked => 3
  | .Error => 4

/-- Modelled from the spec: `ScriptState::default()` is the defined minimum state. -/
def ScriptState.default : ScriptState := ScriptState.Active

/-- Modelled from the spec: `crate::types::ScriptStatus` is
`{ state: State, message: optional string }` (its `Option` message is also
visible from the `if let Some(message) = &status.message` use in `daemon.rs`). -/
structure ScriptStatus where
  state : ScriptState
  message : Option String
deriving DecidableEq, Repr

/-- The comparison `status.state > juju_state` used by `get_juju_status`:
keep the accumulator unless the new state has strictly higher precedence. -/
def maxState (a b : ScriptState) : ScriptState :=
  if a.rank < b.rank then b else a

/-- One iteration of the loop body of `LuckyDaemon::get_juju_status`
(`src/daemon.rs` lines 46-63): the state is replaced when strictly more
precedent, and a present message is appended to the running message with
the `", "` separator (`[current, message].join(", ")`), independently of
the state comparison. -/
def aggStep (acc : ScriptState × Option String) (status : ScriptStatus) :
    ScriptState × Option String :=
  let st := maxState acc.1 status.state
  let msg :=
    match status.message, acc.2 with
    | some m, some current => some (current ++ ", " ++ m)
    | some m, none => some m
    | none, _ => acc.2
  (st, msg)

/-- Shallow embedding of `LuckyDaemon::get_juju_status` (`src/daemon.rs`
lines 40-70). The `snapshot` argument is the sequence of `ScriptStatus`
values yielded by iterating `self.script_statuses.read().unwrap().values()`;
`HashMap` iteration order is arbitrary, so no ordering of this list is
assumed anywhere. Accumulators start at `ScriptState::default()` and `None`. -/
def get_juju_status (snapshot : List ScriptStatus) : ScriptStatus :=
  let r := snapshot.foldl aggStep (ScriptState.default, none)
  { state := r.1, message := r.2 }

/-- The `script_statuses` map, modelled as an association list with unique
keys; the value sequence of the map is the list in order. -/
abbrev Store := List (String × ScriptStatus)

/-- `HashMap::insert`: replace the value of an existing key, otherwise add
the new entry. -/
def storeInsert (store : Store) (id : String) (st : ScriptStatus) : Store :=
  match store with
  | [] => [(id, st)]
  | (k, v) :: rest =>
    if k = id then (id, st) :: rest else (k, v) :: storeInsert rest id st

/-- `HashMap` key lookup. -/
def storeLookup (store : Store) (id : String) : Option ScriptStatus :=
  match store with
  | [] => none
  | (k, v) :: rest => if k = id then some v else storeLookup rest id

/-- `HashMap::values()`: the sequence of statuses in the store. -/
def storeValues (store : Store) : List ScriptStatus :=
  store.map (fun e => e.2)

/-- A reply emitted on a non-streaming call: `call.reply()` with no payload,
or `call.reply_os_error(msg)`. -/
inductive BasicReply where
  | ok
  | osError (msg : String)
deriving DecidableEq, Repr

/-- Shallow embedding of `LuckyDaemon::set_status` (`src/daemon.rs` lines
114-135). `sink` models the external status sink `crate::juju::set_status`
(`some e` is a failure carrying message `e`, `none` is success). The store is
mutated first; then the consolidated status is published; on sink failure
`call.reply_os_error` is invoked via `or_else(..)?` and — there being no early
return — control still reaches `call.reply()`, so both replies are emitted.
The returned list is the sequence of replies in emission order. -/
def set_status (store : Store) (script_id : String) (status : ScriptStatus)
    (sink : ScriptStatus → Option String) : Store × List BasicReply :=
  let store2 := storeInsert store script_id status
  match sink (get_juju_status (storeValues store2)) with
  | some e => (store2, [BasicReply.osError e, BasicReply.ok])
  | none => (store2, [BasicReply.ok])

/-- A reply emitted on the streaming `TriggerHook` call: `more` is a reply
sent while `call.set_continues(true)` is in effect ("more replies follow"),
`final` is a reply sent after `call.set_continues(false)` ("no more replies"),
and `osError` is `call.reply_os_error`. -/
inductive HookReply where
  | more (message : Option String)
  | final (message : Option String)
  | osError (msg : String)
deriving DecidableEq, Repr

/-- Shallow embedding of `LuckyDaemon::trigger_hook` (`src/daemon.rs` lines
75-100). `charm_dir` models the external `config::get_charm_dir()` call
(`Except.error e` is a resolution failure with message `e`). On failure the
handler replies `reply_os_error` and returns; on success it sends two fixed
intermediate replies and one terminal empty reply. The returned list is the
sequence of replies in emission order. -/
def trigger_hook (hook_name : String) (charm_dir : Except String String) :
    List HookReply :=
  match charm_dir with
  | .error e => [HookReply.osError e]
  | .ok _ =>
    [HookReply.more (some "Hello fello!"),
     HookReply.more (some "Goodbye dude!"),
     HookReply.final none]

/-- The mutable state owned by a `LuckyDaemon` instance: the shared
`stop_listening` flag and the `script_statuses` store. -/
structure DaemonState where
  stop_listening : Bool
  script_statuses : Store
deriving DecidableEq, Repr

/-- Shallow embedding of `LuckyDaemon::stop_daemon` (`src/daemon.rs` lines
103-111): store `true` into the flag, then reply with no payload. -/
def stop_daemon (d : DaemonState) : DaemonState × BasicReply :=
  ({ d with stop_listening := true }, BasicReply.ok)

/-- One RPC operation of the service, with the outcomes of its external
collaborators as data (the sink result for `SetStatus`, the charm-dir
resolution for `TriggerHook`). -/
inductive DaemonOp where
  | setStatusOp (script_id : String) (status : ScriptStatus) (sinkError : Option String)
  | triggerHookOp (hook_name : String) (charm_dir : Except String String)
  | stopDaemonOp

/-- The effect of one RPC call on the daemon state: `set_status` writes the
store (regardless of the sink outcome), `trigger_hook` touches no daemon
state, `stop_daemon` raises the flag. -/
def applyOp (d : DaemonState) (op : DaemonOp) : DaemonState :=
  match op with
  | .setStatusOp id st e =>
    { d with script_statuses := (set_status d.script_statuses id st (fun _ => e)).1 }
  | .triggerHookOp _ _ => d
  | .stopDaemonOp => (stop_daemon d).1

/-- The messages the aggregation loop collects: every message that is
present (`Some`), empty or not, in snapshot order. -/
def presentMessages (snapshot : List ScriptStatus) : List String :=
  snapshot.filterMap (fun s => s.message)

/-- Left-to-right join with the `", "` separator; `none` when the list is
empty. -/
def joinMessages (msgs : List String) : Option String :=
  match msgs with
  | [] => none
  | m :: rest => some (rest.foldl (fun a b => a ++ ", " ++ b) m)

/-- The consolidated message as the spec's words prescribe it: the join of
exactly those messages that are present AND non-empty, absent when no such
message exists. Stated for comparison with `get_juju_status`. -/
def specMessage (snapshot : List ScriptStatus) : Option String :=
  joinMessages (snapshot.filterMap (fun s =>
    match s.message with
    | some m => if m = "" then none else some m
    | none => none))

/-- Modelled from the spec: the reply stream that relaying the hook-execution
capability's output chunks would produce — one intermediate reply per chunk,
then the terminal empty reply. Stated for comparison with `trigger_hook`. -/
def relayedHookReplies (chunks : List String) : List HookReply :=
  chunks.map (fun c => HookReply.more (some c)) ++ [HookReply.final none]

/-! ## Helper lemmas -/

/-- The rank function is injective: distinct states always compare strictly. -/
theorem ScriptState.rank_inj : ∀ s t : ScriptState, s.rank = t.rank → s = t := by
  decide

/-- `ScriptState.default` is the minimum of the precedence order. -/
theorem ScriptState.default_rank_le : ∀ s : ScriptState, ScriptState.default.rank ≤ s.rank := by
  decide

theorem rank_le_maxState_left : ∀ a b : ScriptState, a.rank ≤ (maxState a b).rank := by
  decide

theorem rank_le_maxState_right : ∀ a b : ScriptState, b.rank ≤ (maxState a b).rank := by
  decide

/-- `maxState` is right-commutative, so folding it is permutation invariant. -/
theorem maxState_right_comm :
    ∀ a b c : ScriptState, maxState (maxState a b) c = maxState (maxState a c) b := by
  decide

/-- The state component of the aggregation fold is the fold of `maxState`
over the states, ignoring messages. -/
theorem aggStep_fold_fst (l : List ScriptStatus) :
    ∀ (a : ScriptState) (m : Option String),
      (l.foldl aggStep (a, m)).1 = (l.map (fun s => s.state)).foldl maxState a := by
  induction l with
  | nil => intro a m; rfl
  | cons hd tl ih =>
    intro a m
    simp only [List.foldl_cons, List.map_cons, aggStep]
    exact ih (maxState a hd.state) _

/-- One step of the message accumulation: append with the `", "` separator. -/
def msgStep (acc : Option String) (m : String) : Option String :=
  match acc with
  | some current => some (current ++ ", " ++ m)
  | none => some m

/-- The message component of the aggregation fold is the fold of `msgStep`
over the present messages, ignoring states. -/
theorem aggStep_fold_snd (l : List ScriptStatus) :
    ∀ (a : ScriptState) (m : Option String),
      (l.foldl aggStep (a, m)).2 = (presentMessages l).foldl msgStep m := by
  induction l with
  | nil => intro a m; rfl
  | cons hd tl ih =>
    intro a m
    simp only [List.foldl_cons, presentMessages, List.filterMap_cons]
    cases hmsg : hd.message with
    | none =>
      have : aggStep (a, m) hd = (maxState a hd.state, m) := by
        simp [aggStep, hmsg]
      rw [this]
      exact ih _ m
    | some s =>
      have : aggStep (a, m) hd = (maxState a hd.state, msgStep m s) := by
        cases m <;> simp [aggStep, hmsg, msgStep]
      rw [this]
      simpa [presentMessages] using ih (maxState a hd.state) (msgStep m s)

/-- Folding `msgStep` from a started message is the plain string fold. -/
theorem msgStep_foldl_some (l : List String) :
    ∀ c : String, l.foldl msgStep (some c) = some (l.foldl (fun a b => a ++ ", " ++ b) c) := by
  induction l with
  | nil => intro c; rfl
  | cons hd tl ih => intro c; exact ih (c ++ ", " ++ hd)

/-- Folding `msgStep` from `none` computes `joinMessages`. -/
theorem msgStep_foldl_none (l : List String) :
    l.foldl msgStep none = joinMessages l := by
  cases l with
  | nil => rfl
  | cons hd tl => simpa [joinMessages, msgStep] using msgStep_foldl_some tl hd

/-- The fold of `maxState` returns its seed or an element of the list. -/
theorem foldl_maxState_mem (l : List ScriptState) :
    ∀ a : ScriptState, l.foldl maxState a = a ∨ l.foldl maxState a ∈ l := by
  induction l with
  | nil => intro a; exact Or.inl rfl
  | cons hd tl ih =>
    intro a
    rcases ih (maxState a hd) with h | h
    · rw [List.foldl_cons, h]
      by_cases hlt : a.rank < hd.rank
      · exact Or.inr (by simp [maxState, hlt])
      · exact Or.inl (by simp [maxState, hlt])
    · exact Or.inr (List.mem_cons_of_mem _ (by rw [List.foldl_cons]; exact h))

/-- The seed's rank never exceeds the fold's rank. -/
theorem rank_le_foldl_maxState (l : List ScriptState) :
    ∀ a : ScriptState, a.rank ≤ (l.foldl maxState a).rank := by
  induction l with
  | nil => intro a; exact Nat.le_refl _
  | cons hd tl ih =>
    intro a
    exact Nat.le_trans (rank_le_maxState_left a hd) (by rw [List.foldl_cons]; exact ih _)

/-- No list element's rank exceeds the fold's rank. -/
theorem mem_rank_le_foldl_maxState (l : List ScriptState) :
    ∀ (a s : ScriptState), s ∈ l → s.rank ≤ (l.foldl maxState a).rank := by
  induction l with
  | nil => intro a s hs; cases hs
  | cons hd tl ih =>
    intro a s hs
    rw [List.foldl_cons]
    rcases List.mem_cons.mp hs with h | h
    · subst h
      exact Nat.le_trans (rank_le_maxState_right a s) (rank_le_foldl_maxState tl _)
    · exact ih _ s h

/-- Folding `maxState` is invariant under permutation of the list. -/
theorem foldl_maxState_perm {l1 l2 : List ScriptState} (h : l1.Perm l2) :
    ∀ a : ScriptState, l1.foldl maxState a = l2.foldl maxState a := by
  induction h with
  | nil => intro a; rfl
  | cons x _ ih => intro a; simp only [List.foldl_cons]; exact ih _
  | swap x y l =>
    intro a
    simp only [List.foldl_cons]
    rw [maxState_right_comm]
  | trans _ _ ih1 ih2 => intro a; exact (ih1 a).trans (ih2 a)

/-- Inserting a key makes it look up to the new status. -/
theorem storeLookup_insert_self (store : Store) (id : String) (st : ScriptStatus) :
    storeLookup (storeInsert store id st) id = some st := by
  induction store with
  | nil => simp [storeInsert, storeLookup]
  | cons hd tl ih =>
    by_cases h : hd.1 = id
    · simp [storeInsert, storeLookup, h]
    · simpa [storeInsert, storeLookup, h] using ih

/-- The inserted entry is a member of the resulting store. -/
theorem storeInsert_mem (store : Store) (id : String) (st : ScriptStatus) :
    (id, st) ∈ storeInsert store id st := by
  induction store with
  | nil => simp [storeInsert]
  | cons hd tl ih =>
    by_cases h : hd.1 = id
    · simp [storeInsert, h]
    · simp only [storeInsert, h, if_false]
      exact List.mem_cons_of_mem _ ih

/-- Inserting one key leaves every other key's lookup unchanged. -/
theorem storeLookup_insert_other (store : Store) (id : String) (st : ScriptStatus)
    (k : String) (hk : k ≠ id) :
    storeLookup (storeInsert store id st) k = storeLookup store k := by
  induction store with
  | nil => simp [storeInsert, storeLookup, Ne.symm hk]
  | cons hd tl ih =>
    obtain ⟨k0, v0⟩ := hd
    by_cases h : k0 = id
    · subst h
      simp only [storeInsert, if_pos rfl]
      simp [storeLookup, Ne.symm hk]
    · simp only [storeInsert, if_neg h]
      by_cases h2 : k0 = k
      · simp [storeLookup, h2]
      · simp [storeLookup, h2, ih]

/-- `applyOp` never lowers the `stop_listening` flag. -/
theorem applyOp_flag_mono (d : DaemonState) (op : DaemonOp)
    (h : d.stop_listening = true) : (applyOp d op).stop_listening = true := by
  cases op <;> simp [applyOp, stop_daemon, h]

/-- The flag stays `true` across any sequence of RPC operations. -/
theorem foldl_applyOp_flag_mono (ops : List DaemonOp) :
    ∀ d : DaemonState, d.stop_listening = true →
      (ops.foldl applyOp d).stop_listening = true := by
  induction ops with
  | nil => intro d h; exact h
  | cons hd tl ih =>
    intro d h
    exact ih _ (applyOp_flag_mono d hd h)

/-! ## Claim theorems -/

/-- Claim C1: for every snapshot, `get_juju_status` returns a consolidated
state equal to the maximum state (by the total precedence order) across all
statuses in the snapshot — it is one of the snapshot's states and no
snapshot state outranks it — and returns the defined minimum State (which
is `ScriptState.default`) with an absent message when the snapshot is empty. -/
theorem agg_state_is_max (snap : List ScriptStatus) :
    (∀ s : ScriptState, ScriptState.default.rank ≤ s.rank) ∧
    (snap = [] → get_juju_status snap = { state := ScriptState.default, message := none }) ∧
    (snap ≠ [] →
      (get_juju_status snap).state ∈ snap.map (fun s => s.state) ∧
      ∀ s ∈ snap, s.state.rank ≤ (get_juju_status snap).state.rank) := by
  have hfst : (get_juju_status snap).state =
      (snap.map (fun s => s.state)).foldl maxState ScriptState.default :=
    aggStep_fold_fst snap ScriptState.default none
  refine ⟨ScriptState.default_rank_le, fun h => by subst h; rfl, fun hne => ?_⟩
  constructor
  · rcases foldl_maxState_mem (snap.map (fun s => s.state)) ScriptState.default with h | h
    · obtain ⟨hd, tl, rfl⟩ := List.exists_cons_of_ne_nil hne
      have hmem : hd.state ∈ (hd :: tl).map (fun s => s.state) :=
        List.mem_map_of_mem _ (List.mem_cons_self _ _)
      have h1 : hd.state.rank ≤
          (((hd :: tl).map (fun s => s.state)).foldl maxState ScriptState.default).rank :=
        mem_rank_le_foldl_maxState _ _ _ hmem
      rw [h] at h1
      have heq : hd.state = ScriptState.default :=
        ScriptState.rank_inj _ _ (Nat.le_antisymm h1 (ScriptState.default_rank_le _))
      rw [hfst, h, ← heq]
      exact hmem
    · rw [hfst]; exact h
  · intro s hs
    rw [hfst]
    exact mem_rank_le_foldl_maxState _ _ _ (List.mem_map_of_mem _ hs)

/-- Witness for C1 at the empty snapshot and a singleton snapshot. -/
theorem agg_state_is_max_witness :
    get_juju_status [] = { state := ScriptState.default, message := none } ∧
    (get_juju_status [ScriptStatus.mk ScriptState.Blocked none]).state ∈
      List.map (fun s => s.state) [ScriptStatus.mk ScriptState.Blocked none] :=
  ⟨(agg_state_is_max []).2.1 rfl,
   ((agg_state_is_max [ScriptStatus.mk ScriptState.Blocked none]).2.2 (by simp)).1⟩

/-- Claim C2, counterexample: the aggregation loop checks only that a message
is present (`if let Some(message)`), never that it is non-empty, so a store
holding one status with the empty message yields `Some("")` where the claim
demands `None`. -/
theorem agg_message_counterexample :
    (get_juju_status [ScriptStatus.mk ScriptState.Active (some "")]).message = some "" ∧
    specMessage [ScriptStatus.mk ScriptState.Active (some "")] = none := by
  exact ⟨rfl, rfl⟩

/-- Claim C2, amended: the consolidated message is the `", "`-join of exactly
those messages that are present (empty ones included), each included
independently of the state comparison; it is `none` exactly when no message
is present at all. -/
theorem agg_message_joins_present (snap : List ScriptStatus) :
    (get_juju_status snap).message = joinMessages (presentMessages snap) := by
  have h : (get_juju_status snap).message =
      (snap.foldl aggStep (ScriptState.default, none)).2 := rfl
  rw [h, aggStep_fold_snd, msgStep_foldl_none]

/-- Claim C3, counterexample: the snapshot is `HashMap` value iteration, not
a ReporterId-sorted sequence; two snapshots holding the same two statuses in
different orders aggregate to different message strings. -/
theorem agg_message_order_counterexample :
    List.Perm
      [ScriptStatus.mk ScriptState.Active (some "x"), ScriptStatus.mk ScriptState.Active (some "y")]
      [ScriptStatus.mk ScriptState.Active (some "y"), ScriptStatus.mk ScriptState.Active (some "x")] ∧
    (get_juju_status
      [ScriptStatus.mk ScriptState.Active (some "x"), ScriptStatus.mk ScriptState.Active (some "y")]).message ≠
    (get_juju_status
      [ScriptStatus.mk ScriptState.Active (some "y"), ScriptStatus.mk ScriptState.Active (some "x")]).message := by
  refine ⟨List.Perm.swap _ _ _, ?_⟩
  decide

/-- Claim C3, amended: the consolidated state is deterministic — any two
snapshots holding the same statuses (permutations of each other) aggregate
to the same state — but the message depends on the iteration order. -/
theorem agg_state_perm_invariant (l1 l2 : List ScriptStatus) (h : l1.Perm l2) :
    (get_juju_status l1).state = (get_juju_status l2).state := by
  have e1 : (get_juju_status l1).state =
      (l1.map (fun s => s.state)).foldl maxState ScriptState.default :=
    aggStep_fold_fst l1 ScriptState.default none
  have e2 : (get_juju_status l2).state =
      (l2.map (fun s => s.state)).foldl maxState ScriptState.default :=
    aggStep_fold_fst l2 ScriptState.default none
  rw [e1, e2]
  exact foldl_maxState_perm (h.map _) _

/-- Witness for the amended C3 on a concrete two-element permutation. -/
theorem agg_state_perm_invariant_witness :
    (get_juju_status
      [ScriptStatus.mk ScriptState.Waiting none, ScriptStatus.mk ScriptState.Blocked none]).state =
    (get_juju_status
      [ScriptStatus.mk ScriptState.Blocked none, ScriptStatus.mk ScriptState.Waiting none]).state :=
  agg_state_perm_invariant _ _ (List.Perm.swap _ _ _)

/-- Claim C4: when the status sink fails, the first reply the `SetStatus`
call emits is an OsError reply carrying the sink's message, and the store
write is not rolled back — the just-written entry is still present and
looked up by its reporter id afterwards. -/
theorem set_status_sink_failure (store : Store) (id : String) (st : ScriptStatus)
    (sink : ScriptStatus → Option String) (e : String)
    (h : sink (get_juju_status (storeValues (storeInsert store id st))) = some e) :
    ((set_status store id st sink).2).head? = some (BasicReply.osError e) ∧
    storeLookup (set_status store id st sink).1 id = some st ∧
    (id, st) ∈ (set_status store id st sink).1 := by
  simp only [set_status, h]
  exact ⟨rfl, storeLookup_insert_self _ _ _, storeInsert_mem _ _ _⟩

/-- Witness for C4 with a concrete always-failing sink. -/
theorem set_status_sink_failure_witness :
    ((set_status [] "mon" (ScriptStatus.mk ScriptState.Error (some "bad"))
        (fun _ => some "sink down")).2).head? = some (BasicReply.osError "sink down") ∧
    storeLookup (set_status [] "mon" (ScriptStatus.mk ScriptState.Error (some "bad"))
        (fun _ => some "sink down")).1 "mon" = some (ScriptStatus.mk ScriptState.Error (some "bad")) ∧
    ("mon", ScriptStatus.mk ScriptState.Error (some "bad")) ∈
      (set_status [] "mon" (ScriptStatus.mk ScriptState.Error (some "bad"))
        (fun _ => some "sink down")).1 :=
  set_status_sink_failure [] "mon" (ScriptStatus.mk ScriptState.Error (some "bad"))
    (fun _ => some "sink down") "sink down" rfl

/-- Claim C5, failing execution: on sink failure `set_status` calls
`call.reply_os_error(..)` through `or_else(..)?` but has no early return
(unlike `trigger_hook`), so control still reaches `call.reply()` and the
single call emits both an error reply and a success reply. -/
theorem set_status_emits_both_replies :
    (set_status [] "scriptA" (ScriptStatus.mk ScriptState.Active none)
      (fun _ => some "boom")).2 = [BasicReply.osError "boom", BasicReply.ok] := rfl

/-- Claim C6, counterexample: the success-path replies do not relay the
hook-execution capability's output — for a hook producing no output chunks
the relayed stream would be just the terminal reply, but `trigger_hook`
emits its fixed placeholder messages. -/
theorem trigger_hook_no_relay_counterexample :
    trigger_hook "install" (Except.ok "/charm") ≠ relayedHookReplies [] ∧
    relayedHookReplies [] = [HookReply.final none] := by
  refine ⟨?_, rfl⟩
  decide

/-- Claim C6, amended: on successful context resolution the streamed replies
are a (fixed) sequence of intermediate replies each tagged "more replies
follow", terminated by exactly one final reply tagged "no more replies"
carrying no message; the hook executor's output is not relayed. -/
theorem trigger_hook_stream_shape (hook_name charm_dir : String) :
    ∃ ms : List (Option String),
      trigger_hook hook_name (Except.ok charm_dir) =
        ms.map HookReply.more ++ [HookReply.final none] :=
  ⟨[some "Hello fello!", some "Goodbye dude!"], rfl⟩

/-- Claim C7: when charm-directory resolution fails, the caller receives
exactly one OsError reply carrying the failure's message — no "more replies
follow" reply is ever sent and nothing follows the error reply. -/
theorem trigger_hook_context_failure (hook_name e : String) :
    trigger_hook hook_name (Except.error e) = [HookReply.osError e] := rfl

/-- Claim C8: `stop_daemon` sets the lifecycle flag to `true` and replies
with no payload; when the flag is already `true` the call is a no-op that
still succeeds; and no sequence of RPC operations ever transitions the flag
from `true` back to `false`. -/
theorem stop_daemon_idempotent_monotone (d : DaemonState) (ops : List DaemonOp) :
    ((stop_daemon d).1.stop_listening = true ∧ (stop_daemon d).2 = BasicReply.ok) ∧
    (d.stop_listening = true → stop_daemon d = (d, BasicReply.ok)) ∧
    (d.stop_listening = true → (ops.foldl applyOp d).stop_listening = true) := by
  refine ⟨⟨rfl, rfl⟩, ?_, fun h => foldl_applyOp_flag_mono ops d h⟩
  intro h
  obtain ⟨fl, ss⟩ := d
  have h2 : fl = true := h
  subst h2
  rfl

/-- Witness for C8: flag already `true`, a concrete operation sequence. -/
theorem stop_daemon_idempotent_monotone_witness :
    (List.foldl applyOp (DaemonState.mk true [])
      [DaemonOp.stopDaemonOp,
       DaemonOp.setStatusOp "s" (ScriptStatus.mk ScriptState.Active none) none,
       DaemonOp.triggerHookOp "install" (Except.ok "/charm")]).stop_listening = true ∧
    stop_daemon (DaemonState.mk true []) = (DaemonState.mk true [], BasicReply.ok) :=
  ⟨(stop_daemon_idempotent_monotone (DaemonState.mk true [])
      [DaemonOp.stopDaemonOp,
       DaemonOp.setStatusOp "s" (ScriptStatus.mk ScriptState.Active none) none,
       DaemonOp.triggerHookOp "install" (Except.ok "/charm")]).2.2 rfl,
   (stop_daemon_idempotent_monotone (DaemonState.mk true []) []).2.1 rfl⟩

/-- Claim C9: the store's Set operation (a total function — it cannot fail)
unconditionally upserts the entry for the written reporter id, leaves every
other reporter id's entry unchanged, and the written entry is visible in
the resulting store (hence in every subsequent snapshot of it). -/
theorem store_set_upsert_frame (store : Store) (id : String) (st : ScriptStatus) :
    storeLookup (storeInsert store id st) id = some st ∧
    (id, st) ∈ storeInsert store id st ∧
    ∀ k : String, k ≠ id → storeLookup (storeInsert store id st) k = storeLookup store k :=
  ⟨storeLookup_insert_self store id st, storeInsert_mem store id st,
   fun k hk => storeLookup_insert_other store id st k hk⟩

/-- Witness for C9 on a concrete two-key store. -/
theorem store_set_upsert_frame_witness :
    storeLookup (storeInsert [("a", ScriptStatus.mk ScriptState.Active none)] "b"
      (ScriptStatus.mk ScriptState.Blocked none)) "b" =
        some (ScriptStatus.mk ScriptState.Blocked none) ∧
    storeLookup (storeInsert [("a", ScriptStatus.mk ScriptState.Active none)] "b"
      (ScriptStatus.mk ScriptState.Blocked none)) "a" =
        storeLookup [("a", ScriptStatus.mk ScriptState.Active none)] "a" :=
  ⟨(store_set_upsert_frame [("a", ScriptStatus.mk ScriptState.Active none)] "b"
      (ScriptStatus.mk ScriptState.Blocked none)).1,
   (store_set_upsert_frame [("a", ScriptStatus.mk ScriptState.Active none)] "b"
      (ScriptStatus.mk ScriptState.Blocked none)).2.2 "a" (by decide)⟩

/-- Claim C10: a successful `TriggerHook` call emits exactly two
intermediate replies carrying "Hello fello!" and "Goodbye dude!" in that
order, then one terminal reply with an absent message, and the stream does
not depend on the hook name (or on the resolved directory). -/
theorem trigger_hook_fixed_output (h1 h2 d1 d2 : String) :
    trigger_hook h1 (Except.ok d1) =
      [HookReply.more (some "Hello fello!"), HookReply.more (some "Goodbye dude!"),
       HookReply.final none] ∧
    trigger_hook h1 (Except.ok d1) = trigger_hook h2 (Except.ok d2) :=
  ⟨rfl, rfl⟩

end Lucky
